import Mathlib

/-!
Verification of the model-lifecycle subsystem of the price dashboard.

Shallow embedding conventions:
* SQLite `DATETIME` columns hold ISO-8601 UTC text; lexicographic order on that
  text agrees with time order, so timestamps are carried as `ℤ` (seconds since
  the epoch) and the `±1 hour` / `1 minute` windows become `±3600` / `60`.
* `REAL` columns and Python floats are carried as `ℚ`.
* A table is a list of rows in insertion order; SQL `WHERE` is `List.filter`,
  `ORDER BY ... ASC` is `List.insertionSort`.
* Python functions that swallow exceptions are embedded as total functions whose
  fallible body runs in `Except`, with the `except:` handler applied on top.
-/

namespace PriceDashboard

/-! ### Fetched cursor rows

`sqlite3` returns plain tuples from a cursor unless the connection sets
`row_factory`.  `DatabaseManager.get_connection` (src/utils/database.py) sets
`row_factory = sqlite3.Row`, so its rows support lookup by column name
(`keyed` below).  `ModelMonitor` (src/utils/model_monitor.py) opens raw
`sqlite3.connect(self.db_path)` connections, whose rows are plain tuples
(`plain` below); indexing a tuple with a column-name string raises
`TypeError: tuple indices must be integers or slices, not str`. -/

inductive Fetched (α : Type) where
  | plain (cols : α)
  | keyed (cols : α)
deriving DecidableEq, Repr

/-- Look a column up by name: `row[name]` with the projection standing for the
column name.  Fails on a `plain` tuple row exactly as CPython does. -/
def Fetched.byName {α β : Type} : Fetched α → (α → β) → Except String β
  | .plain _, _ => .error "TypeError: tuple indices must be integers or slices, not str"
  | .keyed c, f => .ok (f c)

/-! ### Price Store (src/utils/database.py) -/

/-- A row of the `price_history` table.  The `volume_24h`, `market_cap` and
`source` columns are never read by any property under consideration and are
omitted. -/
structure PriceObs where
  coin : String
  time : ℤ
  price : ℚ
deriving DecidableEq, Repr

abbrev PriceDB := List PriceObs

/-- Timestamp order on price observations, for `ORDER BY timestamp ASC`. -/
def obsLE (a b : PriceObs) : Prop := a.time ≤ b.time

instance : DecidableRel obsLE := fun a b => inferInstanceAs (Decidable (a.time ≤ b.time))

instance : IsTotal PriceObs obsLE := ⟨fun a b => Int.le_total a.time b.time⟩

instance : IsTrans PriceObs obsLE := ⟨fun _ _ _ h h' => Int.le_trans h h'⟩

/-- `DatabaseManager.get_price_range`: rows with `coin_id = ?` and
`timestamp >= ? AND timestamp <= ?` (inclusive bounds), `ORDER BY timestamp ASC`. -/
def getPriceRange (db : PriceDB) (coin : String) (lo hi : ℤ) : List PriceObs :=
  List.insertionSort obsLE
    (db.filter fun o => o.coin == coin && decide (lo ≤ o.time) && decide (o.time ≤ hi))

/-- `DatabaseManager.insert_price_data`: validates the payload
(`_validate_price_data`: required fields present, `price > 0`, parseable
timestamp — the embedding receives the timestamp already parsed), then rejects
the insert when some existing row for the asset has
`timestamp >= t AND timestamp < t + 1 minute`, else appends the new row.
Returns the `True`/`False` success flag together with the new table. -/
def insertPriceData (db : PriceDB) (coin : String) (t : ℤ) (price : ℚ) : Bool × PriceDB :=
  if price ≤ 0 then (false, db)
  else if db.any (fun o => o.coin == coin && decide (t ≤ o.time) && decide (o.time < t + 60)) then
    (false, db)
  else (true, db ++ [⟨coin, t, price⟩])

/-! ### Model Monitor (src/utils/model_monitor.py) -/

/-- A row of the `predictions` table. -/
structure PredRow where
  id : ℕ
  modelVersion : String
  coin : String
  /-- `prediction_date`, the forecast's target date. -/
  predDate : ℤ
  predicted : ℚ
  actual : Option ℚ
  /-- `prediction_timestamp`, when the prediction was stored. -/
  storedAt : ℤ
deriving DecidableEq, Repr

abbrev PredDB := List PredRow

/-- Target-date order on prediction rows, for `ORDER BY prediction_date ASC`. -/
def predLE (a b : PredRow) : Prop := a.predDate ≤ b.predDate

instance : DecidableRel predLE := fun a b => inferInstanceAs (Decidable (a.predDate ≤ b.predDate))

instance : IsTotal PredRow predLE := ⟨fun a b => Int.le_total a.predDate b.predDate⟩

instance : IsTrans PredRow predLE := ⟨fun _ _ _ h h' => Int.le_trans h h'⟩

/-- The closest-observation scan of `ModelMonitor.update_actual_prices`:
`min_diff` starts at `inf` (`none` here) and each observation strictly closer
to the target date replaces the running best, so the earliest of several
equally close observations wins. -/
def closestPrice (pdate : ℤ) (data : List PriceObs) : Option ℚ :=
  (data.foldl
    (fun acc o =>
      let d := (o.time - pdate).natAbs
      match acc with
      | none => some (d, o.price)
      | some (m, p) => if d < m then some (d, o.price) else some (m, p))
    none).map Prod.snd

/-- `UPDATE predictions SET actual_price = ? WHERE id = ?`. -/
def setActual (db : PredDB) (pid : ℕ) (price : ℚ) : PredDB :=
  db.map fun r => if r.id == pid then { r with actual := some price } else r

/-- Body of `ModelMonitor.update_actual_prices`, before the blanket
`except`.  The pending predictions are fetched on a raw `sqlite3.connect`
cursor, hence `plain` tuple rows: the first name lookup `pred['id']` raises.
For fidelity the rest of the loop is embedded anyway: the `±1 hour` range
query, the closest-observation scan, and the Python-truthiness guard
`if closest_price:` (a price of exactly `0` is falsy and skipped). -/
def updateActualPricesBody (mdb : PredDB) (pdb : PriceDB) : Except String PredDB :=
  let pending := (List.insertionSort predLE (mdb.filter fun r => r.actual.isNone)).map
    Fetched.plain
  pending.foldlM
    (fun db pred => do
      let pid ← pred.byName PredRow.id
      let coin ← pred.byName PredRow.coin
      let pdate ← pred.byName PredRow.predDate
      let actualData := getPriceRange pdb coin (pdate - 3600) (pdate + 3600)
      if actualData.isEmpty then
        pure db
      else
        match closestPrice pdate actualData with
        | some p => if p ≠ 0 then pure (setActual db pid p) else pure db
        | none => pure db)
    mdb

/-- `ModelMonitor.update_actual_prices` (the spec's `reconcile_actuals`): the
whole body sits under `try: ... except Exception: logger.error(...)`, and the
`with`-managed connection rolls uncommitted updates back on an exception, so a
failing body leaves the table unchanged. -/
def updateActualPrices (mdb : PredDB) (pdb : PriceDB) : PredDB :=
  match updateActualPricesBody mdb pdb with
  | .ok db => db
  | .error _ => mdb

/-- Result dictionary of `ModelMonitor.calculate_metrics`.  The source also
derives `rmse = √mse` (a float); the embedding carries `mse = rmse²` since the
square root is irrational-valued and no property under consideration reads it. -/
inductive MetricsResult where
  /-- `{}` — the blanket `except` handler's return value. -/
  | emptyDict
  /-- `{'sample_size': 0}` — no reconciled predictions in the window. -/
  | sampleSizeZero
  /-- The full metrics dictionary. -/
  | metrics (mse mae mape : ℚ) (n : ℕ)
deriving DecidableEq, Repr

/-- A row of the `performance_metrics` table (`rmse` carried squared, see
`MetricsResult`). -/
structure PerfRow where
  modelVersion : String
  coin : String
  metricDate : ℤ
  periodDays : ℕ
  mse : ℚ
  mae : ℚ
  mape : ℚ
  sampleSize : ℕ
deriving DecidableEq, Repr

abbrev PerfDB := List PerfRow

/-- `INSERT OR REPLACE` keyed on `UNIQUE(model_version, coin_id, metric_date,
period_days)`: drop any row with the new row's key, then append. -/
def upsertPerf (perf : PerfDB) (row : PerfRow) : PerfDB :=
  (perf.filter fun r =>
    !(r.modelVersion == row.modelVersion && r.coin == row.coin &&
      r.metricDate == row.metricDate && r.periodDays == row.periodDays)) ++ [row]

/-- The metric arithmetic of `ModelMonitor.calculate_metrics` over the fetched
`(predicted_price, actual_price)` pairs. -/
def metricsFromPairs (pairs : List (ℚ × ℚ)) : MetricsResult :=
  let n := pairs.length
  let mse := (pairs.map fun q => (q.1 - q.2) ^ 2).sum / (n : ℚ)
  let mae := (pairs.map fun q => |q.1 - q.2|).sum / (n : ℚ)
  let mape := ((pairs.map fun q => |(q.2 - q.1) / q.2|).sum / (n : ℚ)) * 100
  .metrics mse mae mape n

/-- `ModelMonitor.calculate_metrics (model_version, coin_id, days)`.  `now` is
`datetime.now()` in epoch seconds; the cutoff is `now - days·86400` and the
`metric_date` written on success is the call date (carried as `now`).  The
filter keeps reconciled rows (`actual_price IS NOT NULL`) of the version and
asset with `prediction_timestamp >= cutoff`.  An empty result returns
`{'sample_size': 0}` before anything is written.  A nonempty result is a list
of `plain` tuple rows (raw `sqlite3.connect` cursor), so the first name lookup
`p['predicted_price']` raises `TypeError`; the blanket `except` then returns
`{}` and the connection rolls the transaction back, leaving the
`performance_metrics` table unchanged. -/
def calculateMetrics (mdb : PredDB) (perf : PerfDB) (version coin : String)
    (now : ℤ) (days : ℕ) : MetricsResult × PerfDB :=
  let cutoff : ℤ := now - 86400 * days
  let rows := (mdb.filter fun r =>
    r.modelVersion == version && r.coin == coin &&
    decide (cutoff ≤ r.storedAt) && r.actual.isSome).map Fetched.plain
  if rows.isEmpty then (.sampleSizeZero, perf)
  else
    match rows.mapM (fun p => do
        let pr ← p.byName PredRow.predicted
        let ac ← p.byName (fun r => r.actual.getD 0)
        pure (pr, ac)) with
    | .error _ => (.emptyDict, perf)
    | .ok pairs =>
        match metricsFromPairs pairs with
        | .metrics mse mae mape n =>
            (.metrics mse mae mape n,
             upsertPerf perf ⟨version, coin, now, days, mse, mae, mape, n⟩)
        | r => (r, perf)

/-- The dictionary view of a `calculate_metrics` result as read back with
`.get('sample_size', 0)` and `.get('mape', 0)`. -/
structure MetricsDict where
  sampleSize : Option ℕ
  mape : Option ℚ
deriving DecidableEq, Repr

def MetricsResult.toDict : MetricsResult → MetricsDict
  | .emptyDict => ⟨none, none⟩
  | .sampleSizeZero => ⟨some 0, none⟩
  | .metrics _ _ mape n => ⟨some n, some mape⟩

/-- Result dictionary of `ModelMonitor.detect_performance_degradation`. -/
structure DegradationResult where
  degraded : Bool
  reason : Option String
  recentMape : Option ℚ
  baselineMape : Option ℚ
  ratioRB : Option ℚ
  thresholdExceeded : Option Bool
  relativeDegradation : Option Bool
deriving DecidableEq, Repr

/-- The decision logic of `ModelMonitor.detect_performance_degradation`, as a
function of the two `calculate_metrics` results it reads (the recent 7-day and
the baseline 30-day dictionaries) and the `threshold_mape` argument
(default `15`). -/
def detectDegradationCore (recent baseline : MetricsDict) (threshold : ℚ) :
    DegradationResult :=
  if recent.sampleSize.getD 0 < 5 then
    ⟨false, some "Insufficient data", none, none, none, none, none⟩
  else
    let recentMape := recent.mape.getD 0
    let baselineMape := baseline.mape.getD 0
    if baselineMape = 0 then
      ⟨false, some "No baseline available", none, none, none, none, none⟩
    else
      let ratio := recentMape / baselineMape
      ⟨decide (recentMape > threshold) || decide (ratio > 3 / 2), none,
       some recentMape, some baselineMape, some ratio,
       some (decide (recentMape > threshold)), some (decide (ratio > 3 / 2))⟩

/-- `ModelMonitor.detect_performance_degradation` composed with the real
`calculate_metrics` calls (7-day recent, 30-day baseline). -/
def detectDegradation (mdb : PredDB) (perf : PerfDB) (version coin : String)
    (now : ℤ) (threshold : ℚ) : DegradationResult :=
  let recent := (calculateMetrics mdb perf version coin now 7).1
  let baseline := (calculateMetrics mdb (calculateMetrics mdb perf version coin now 7).2
    version coin now 30).1
  detectDegradationCore recent.toDict baseline.toDict threshold

/-- The scoring arithmetic of `ModelMonitor.get_model_health_score`, as a
function of the degradation flag and the 7-day MAPE and sample size it reads.
Note the sample-size deductions are tested in source order: `sample_size < 10`
first (subtracting 15), with the `elif sample_size < 5` branch (subtracting 30)
after it, hence unreachable. -/
def getModelHealthScore (degraded : Bool) (recentMape : ℚ) (sampleSize : ℕ) : ℚ :=
  let score : ℚ := 100
  let score := if degraded then score - 30 else score
  let score := if recentMape > 20 then score - 20
    else if recentMape > 10 then score - 10 else score
  let score := if sampleSize < 10 then score - 15
    else if sampleSize < 5 then score - 30 else score
  max 0 (min 100 score)

/-! ### Model Registry (src/utils/model_registry.py) -/

/-- A parsed semantic version.  The `model_registry` table stores `version` as
`TEXT` of the shape `"v{major}.{minor}.{patch}"`; `register_model` only ever
writes strings of this shape, and `_get_next_version` parses the stored text
back into its three numeric components (strip the `v`, split on dots, map to
int).  The embedding carries the parsed triple and recovers the stored text
with `mkVersionString`. -/
structure Version where
  major : ℕ
  minor : ℕ
  patch : ℕ
deriving DecidableEq, Repr

/-- The stored `TEXT` form of a version. -/
def mkVersionString (v : Version) : String :=
  "v" ++ toString v.major ++ "." ++ toString v.minor ++ "." ++ toString v.patch

/-- A row of the `model_registry` table.  `hyperparameters` is an opaque JSON
blob never read by any property under consideration and is omitted. -/
structure RegRow where
  version : Version
  coin : String
  createdAt : ℕ
  rmse : Option ℚ
  mae : Option ℚ
  mape : Option ℚ
  modelPath : String
deriving DecidableEq, Repr

abbrev Registry := List RegRow

/-- `SELECT ... WHERE coin_id = ? ORDER BY created_at DESC LIMIT 1`: the row
of the asset with the greatest `created_at`.  SQLite leaves the order of ties
unspecified; this model keeps the earlier row on a tie. -/
def latestFor (reg : Registry) (coin : String) : Option RegRow :=
  (reg.filter fun r => r.coin == coin).foldl
    (fun acc r =>
      match acc with
      | none => some r
      | some a => if a.createdAt < r.createdAt then some r else some a)
    none

/-- `ModelRegistry._get_next_version`: default `v1.0.0` when the asset has no
row, else bump the patch component of its most recent version. -/
def getNextVersion (reg : Registry) (coin : String) : Version :=
  match latestFor reg coin with
  | none => ⟨1, 0, 0⟩
  | some r => ⟨r.version.major, r.version.minor, r.version.patch + 1⟩

/-- `sqlite3.IntegrityError: UNIQUE constraint failed: model_registry.version`
— the table declares `version TEXT PRIMARY KEY`, with no per-asset scoping,
and `register_model` has no handler for it. -/
inductive RegError where
  | integrityError
deriving DecidableEq, Repr

/-- `ModelRegistry.register_model`: computes the next version for the asset and
inserts a new row stamped `datetime.now()` (passed here as `now`).  The insert
violates the global `version` primary key whenever any asset already holds that
version string, and the resulting `IntegrityError` propagates uncaught. -/
def registerModel (reg : Registry) (coin modelPath : String)
    (rmse mae mape : Option ℚ) (now : ℕ) : Except RegError (Registry × Version) :=
  let v := getNextVersion reg coin
  if reg.any (fun r => decide (r.version = v)) then .error .integrityError
  else .ok (reg ++ [⟨v, coin, now, rmse, mae, mape, modelPath⟩], v)

/-- `register_model` called `n` times in a row for one asset, with strictly
increasing `created_at` stamps (`clock`, `clock + 1`, ...), collecting the
returned versions; the first `IntegrityError` aborts the run. -/
def registerIter (coin : String) (reg : Registry) (clock : ℕ) :
    ℕ → Except RegError (Registry × List Version)
  | 0 => .ok (reg, [])
  | n + 1 =>
      match registerModel reg coin "model.h5" none none none clock with
      | .error e => .error e
      | .ok rv =>
          match registerIter coin rv.1 (clock + 1) n with
          | .error e => .error e
          | .ok rest => .ok (rest.1, rv.2 :: rest.2)

/-- `ModelRegistry.get_model_by_version`: `SELECT * WHERE version = ?`,
`fetchone` — the first row whose stored version text equals the argument. -/
def getModelByVersion (reg : Registry) (s : String) : Option RegRow :=
  reg.find? fun r => mkVersionString r.version == s

/-- Result dictionary of `ModelRegistry.rollback_to_version`. -/
structure RollbackResult where
  success : Bool
  model : Option RegRow
  error : Option String
  message : Option String
deriving DecidableEq, Repr

/-- `ModelRegistry.rollback_to_version`: look the version up; absent → a
structured failure dictionary, present → a success dictionary carrying the
row.  The lookup itself cannot throw, so the `except` branch (which would
crash on the module's undefined `logger`) is unreachable. -/
def rollbackToVersion (reg : Registry) (s : String) : RollbackResult :=
  match getModelByVersion reg s with
  | none => ⟨false, none, some ("Model version " ++ s ++ " not found"), none⟩
  | some m => ⟨true, some m, none, some ("Rolled back to version " ++ s)⟩

/-! ### Sequence Predictor (src/utils/ml_models.py) -/

/-- A raw row as loaded by `LSTMPredictor.load_data` before cleaning:
`ts = none` models a timestamp `pd.to_datetime(..., utc=True, errors='coerce')`
turned into `NaT`; `price = none` models a `NaN` price dropped by `dropna()`. -/
structure RawPriceRow where
  ts : Option ℤ
  price : Option ℚ
deriving DecidableEq, Repr

/-- The rows surviving both cleaning steps, as (timestamp, price) pairs. -/
def validPoints (rows : List RawPriceRow) : List (ℤ × ℚ) :=
  rows.filterMap fun r => r.ts.bind fun t => r.price.map fun p => (t, p)

/-- Timestamp order on cleaned points, for `sort_values('timestamp')`. -/
def tsLE (a b : ℤ × ℚ) : Prop := a.1 ≤ b.1

instance : DecidableRel tsLE := fun a b => inferInstanceAs (Decidable (a.1 ≤ b.1))

instance : IsTotal (ℤ × ℚ) tsLE := ⟨fun a b => Int.le_total a.1 b.1⟩

instance : IsTrans (ℤ × ℚ) tsLE := ⟨fun _ _ _ h h' => Int.le_trans h h'⟩

/-- `LSTMPredictor.load_data` (the spec's `load_window`): raises `ModelError`
when the store returns nothing; otherwise parses timestamps (`errors='coerce'`),
sorts ascending by timestamp, drops the unparsable rows and `NaN` prices (the
sort precedes the drops, and dropping preserves the sorted order, so the result
is the sorted valid points), and raises `ModelError` when fewer than
`sequence_length + forecast_days` points remain.  Both failures surface as
`ModelError` (re-wrapped by the function's own handler into
`ModelError("Data loading failed: ...")`). -/
def loadData (rows : List RawPriceRow) (seqLen horizon : ℕ) :
    Except String (List (ℤ × ℚ)) :=
  if rows.isEmpty then .error "Data loading failed: No historical data found"
  else
    let df := List.insertionSort tsLE (validPoints rows)
    if df.length < seqLen + horizon then .error "Data loading failed: Insufficient data"
    else .ok df

/-- Whether an `Except` result is the error case. -/
def isErr {ε α : Type} : Except ε α → Bool
  | .error _ => true
  | .ok _ => false

/-- The autoregressive loop of `LSTMPredictor.predict_future`: predict the next
(scaled) value from the current window, slide the window forward
(`np.roll(..., -1)` then overwrite the last slot), repeat `days_ahead` times.
`f` stands for the trained network's one-step prediction. -/
def autoregress (f : List ℚ → ℚ) (seq : List ℚ) : ℕ → List ℚ
  | 0 => []
  | n + 1 =>
      let next := f seq
      next :: autoregress f (seq.drop 1 ++ [next]) n

/-- `MinMaxScaler.inverse_transform` for feature range `(0, 1)`:
`x ↦ x * data_range + data_min`. -/
def inverseTransform (dataRange dataMin : ℚ) (x : ℚ) : ℚ := x * dataRange + dataMin

/-- The arrays returned by `LSTMPredictor.predict_future`. -/
structure ForecastResult where
  predictions : List ℚ
  lower : List ℚ
  upper : List ℚ
deriving DecidableEq, Repr

/-- Population mean, as `np.mean`. -/
def listMean (l : List ℚ) : ℚ := l.sum / (l.length : ℚ)

/-- Population variance, the square of `np.std` (default `ddof = 0`). -/
def listVariance (l : List ℚ) : ℚ :=
  (l.map fun x => (x - listMean l) ^ 2).sum / (l.length : ℚ)

/-- `LSTMPredictor.predict_future`: roll the forecast out `daysAhead` steps,
map back to price units, and attach the heuristic bands
`predictions ∓ 1.96 * pred_std` where `pred_std = 0.1 × np.std(predictions)`.
`predStd` is passed as a parameter because the square root is
irrational-valued; the theorems pin it down by `0 ≤ predStd` and
`(10 * predStd)² = listVariance predictions`. -/
def predictFuture (f : List ℚ → ℚ) (lastSeq : List ℚ) (daysAhead : ℕ)
    (dataRange dataMin predStd : ℚ) : ForecastResult :=
  let preds := (autoregress f lastSeq daysAhead).map (inverseTransform dataRange dataMin)
  { predictions := preds
    lower := preds.map fun p => p - 196 / 100 * predStd
    upper := preds.map fun p => p + 196 / 100 * predStd }

/-! ### Concrete scenario data and auxiliary shapes used by the theorems -/

/-- Two pending `"v1.0.0"` predictions for bitcoin, target dates an epoch-ish
second apart (the reconciliation scenario of the spec). -/
def reconPreds : PredDB :=
  [⟨1, "v1.0.0", "bitcoin", 1000000, 100, none, 999000⟩,
   ⟨2, "v1.0.0", "bitcoin", 1005000, 110, none, 999100⟩]

/-- Price-store observations 100 seconds from each target date, well inside
the ±1 hour window. -/
def reconPrices : PriceDB :=
  [⟨"bitcoin", 1000100, 101⟩, ⟨"bitcoin", 1004900, 111⟩]

/-- The registry produced by `k` successful registrations for one asset
starting from an empty registry: versions `v1.0.0 … v1.0.(k-1)` with strictly
increasing creation stamps `c, c+1, …`. -/
def baseReg (coin : String) (c k : ℕ) : Registry :=
  (List.range k).map fun i => ⟨⟨1, 0, i⟩, coin, c + i, none, none, none, "model.h5"⟩

/-! ### Theorems -/

/-- Claim C1 (evaluation of the code at the failing input): in the spec's own
end-to-end scenario — two pending `"v1.0.0"` predictions whose target dates
each have a Price Store observation within ±1 hour — one call to
`update_actual_prices` leaves both records with `actual_price` still unset,
because the pending rows come from a cursor without a row factory and the very
first lookup `pred['id']` raises `TypeError`, which the blanket `except`
swallows.  The claim's premise holds (both rows pending with in-window
observations) yet its conclusion fails. -/
theorem C1_reconcile_leaves_actuals_unset :
    (∀ r ∈ reconPreds, r.modelVersion = "v1.0.0" ∧ r.actual = none ∧
      getPriceRange reconPrices r.coin (r.predDate - 3600) (r.predDate + 3600) ≠ []) ∧
    updateActualPrices reconPreds reconPrices = reconPreds := by decide

/-- Claim C4 (evaluation of the code at the failing input): with
`degraded = false`, 7-day MAPE `0` and 7-day sample size `3 < 5`, the code
returns `85` (it subtracts only `15`: the `sample_size < 10` test comes first
and captures every `sample_size < 5`, leaving the `-30` branch unreachable),
whereas the claimed schedule subtracts `30`, giving `70`. -/
theorem C4_health_score_small_sample_eval :
    getModelHealthScore false 0 3 = 85 ∧ getModelHealthScore false 0 3 ≠ 70 := by
  unfold getModelHealthScore
  norm_num

/-- Claim C9: `model_registry` declares `version` as its sole primary key, so
version strings are globally unique across assets: with bitcoin already
holding `v1.0.0`, registering the first model for ethereum computes `v1.0.0`
again and the insert fails with an uncaught `IntegrityError`. -/
theorem C9_global_version_collision :
    getNextVersion [⟨⟨1, 0, 0⟩, "bitcoin", 0, none, none, none, "m1"⟩] "ethereum" = ⟨1, 0, 0⟩ ∧
    mkVersionString ⟨1, 0, 0⟩ = "v1.0.0" ∧
    registerModel [⟨⟨1, 0, 0⟩, "bitcoin", 0, none, none, none, "m1"⟩] "ethereum" "m2"
      none none none 1 = .error .integrityError :=
  ⟨rfl, rfl, rfl⟩

/-- Claim C10, counterexample: when no 30-day metrics exist at all (both
`calculate_metrics` calls return `{'sample_size': 0}`, so the baseline MAPE
reads as 0), `detect_performance_degradation` reports
`'Insufficient data'` — the insufficient-data guard fires before the baseline
check — not `'No baseline available'` as the claim states. -/
theorem C10_no_metrics_reason_is_insufficient :
    (detectDegradationCore MetricsResult.sampleSizeZero.toDict
        MetricsResult.sampleSizeZero.toDict 15).degraded = false ∧
    (detectDegradationCore MetricsResult.sampleSizeZero.toDict
        MetricsResult.sampleSizeZero.toDict 15).reason = some "Insufficient data" ∧
    (detectDegradationCore MetricsResult.sampleSizeZero.toDict
        MetricsResult.sampleSizeZero.toDict 15).reason ≠ some "No baseline available" := by
  decide

/-- Every `calculate_metrics` call ends in one of its two early exits: an
empty window filter returns `{'sample_size': 0}`, and a nonempty one fetches
`plain` tuple rows whose first name lookup `p['predicted_price']` raises, so
the blanket `except` returns `{}`.  The full-metrics branch is unreachable. -/
theorem calculateMetrics_result (mdb : PredDB) (perf : PerfDB)
    (version coin : String) (now : ℤ) (days : ℕ) :
    (calculateMetrics mdb perf version coin now days).1 = .sampleSizeZero ∨
    (calculateMetrics mdb perf version coin now days).1 = .emptyDict := by
  simp only [calculateMetrics]
  cases hrows : mdb.filter (fun r => r.modelVersion == version && r.coin == coin &&
      decide (now - 86400 * (days : ℤ) ≤ r.storedAt) && r.actual.isSome) with
  | nil => left; rfl
  | cons a l => right; rfl

/-- Claim C10 as amended: for every prediction store, metrics table, version,
asset, time and threshold, `detect_performance_degradation` returns
`degraded = false` with reason `'Insufficient data'`.  In particular, whenever
the 30-day baseline MAPE evaluates to 0 (including when no 30-day metrics
exist at all) the reason is `'Insufficient data'`, never
`'No baseline available'`, and the absolute-threshold check is never reached:
both `calculate_metrics` reads yield `{}` or `{'sample_size': 0}` (see
`calculateMetrics_result`), so the recent sample size always reads as 0 and
the insufficient-data guard fires first. -/
theorem C10_detect_always_insufficient (mdb : PredDB) (perf : PerfDB)
    (version coin : String) (now : ℤ) (t : ℚ) :
    detectDegradation mdb perf version coin now t =
      ⟨false, some "Insufficient data", none, none, none, none, none⟩ := by
  simp only [detectDegradation]
  rcases calculateMetrics_result mdb perf version coin now 7 with h | h <;> rw [h] <;> rfl

/-- Claim C3, counterexample: observations at seconds 30 and 45 lie in the same
calendar 1-minute bucket (`30 / 60 = 45 / 60 = 0`), yet with the store holding
the one at second 30, recording the one at second 45 returns `true` and grows
the store: the duplicate check only scans the window `[t, t + 60)` at or after
the new timestamp, so an earlier in-bucket observation does not block it. -/
theorem C3_second_in_bucket_accepted :
    (30 : ℤ) / 60 = (45 : ℤ) / 60 ∧
    insertPriceData [⟨"btc", 30, 100⟩] "btc" 45 101 =
      (true, [⟨"btc", 30, 100⟩, ⟨"btc", 45, 101⟩]) := by decide

/-- Claim C3 as amended: a record call at time `t` is rejected — returns
`false` with the store unchanged, not overwritten — whenever some existing
observation for the asset has a timestamp in `[t, t + 60)`; in particular
re-recording an existing timestamp is rejected. -/
theorem C3_reject_within_forward_window (db : PriceDB) (coin : String) (t : ℤ)
    (price : ℚ) (o : PriceObs) (ho : o ∈ db) (hc : o.coin = coin)
    (h1 : t ≤ o.time) (h2 : o.time < t + 60) :
    insertPriceData db coin t price = (false, db) := by
  unfold insertPriceData
  have hany : (db.any fun x =>
      x.coin == coin && decide (t ≤ x.time) && decide (x.time < t + 60)) = true := by
    rw [List.any_eq_true]
    exact ⟨o, ho, by simp [hc, h1, h2]⟩
  by_cases hp : price ≤ 0
  · rw [if_pos hp]
  · rw [if_neg hp, if_pos hany]

/-- Witness for `C3_reject_within_forward_window`: re-recording the exact
timestamp of an existing observation is rejected and the store is unchanged. -/
theorem C3_reject_within_forward_window_witness :
    (⟨"btc", 30, 100⟩ : PriceObs) ∈ [(⟨"btc", 30, 100⟩ : PriceObs)] ∧
    insertPriceData [⟨"btc", 30, 100⟩] "btc" 30 101 = (false, [⟨"btc", 30, 100⟩]) :=
  ⟨by decide,
    C3_reject_within_forward_window [⟨"btc", 30, 100⟩] "btc" 30 101 ⟨"btc", 30, 100⟩
      (by decide) (by decide) (by decide) (by decide)⟩

/-- Claim C6: when no reconciled prediction of the version and asset has its
`prediction_timestamp` inside the trailing window, `calculate_metrics` returns
exactly `{'sample_size': 0}` and writes nothing to the `performance_metrics`
table. -/
theorem C6_zero_reconciled_metrics (mdb : PredDB) (perf : PerfDB)
    (version coin : String) (now : ℤ) (days : ℕ)
    (h : mdb.filter (fun r => r.modelVersion == version && r.coin == coin &&
      decide (now - 86400 * (days : ℤ) ≤ r.storedAt) && r.actual.isSome) = []) :
    calculateMetrics mdb perf version coin now days = (.sampleSizeZero, perf) := by
  simp only [calculateMetrics, h, List.map_nil, List.isEmpty_nil, if_true]

/-- Witness for `C6_zero_reconciled_metrics`: a store whose only prediction is
for another version yields `{'sample_size': 0}` and an untouched metrics
table. -/
theorem C6_zero_reconciled_metrics_witness :
    ([⟨1, "v1.0.1", "bitcoin", 1000000, 100, some 101, 999000⟩] :
        PredDB).filter (fun r => r.modelVersion == "v1.0.0" && r.coin == "bitcoin" &&
      decide ((1000000 : ℤ) - 86400 * ((30 : ℕ) : ℤ) ≤ r.storedAt) && r.actual.isSome) = [] ∧
    calculateMetrics [⟨1, "v1.0.1", "bitcoin", 1000000, 100, some 101, 999000⟩] []
      "v1.0.0" "bitcoin" 1000000 30 = (.sampleSizeZero, []) :=
  ⟨by decide,
    C6_zero_reconciled_metrics [⟨1, "v1.0.1", "bitcoin", 1000000, 100, some 101, 999000⟩]
      [] "v1.0.0" "bitcoin" 1000000 30 (by decide)⟩

/-- Claim C5: rollback to a version held by some registry row succeeds and
carries the matching row (the `fetchone` result of the `version = ?` lookup);
rollback to any version string no row holds returns the structured failure
dictionary with its error message — and `rollback_to_version` is a total
function of the registry state, never an uncaught exception. -/
theorem C5_rollback_spec (reg : Registry) (s : String) :
    ((rollbackToVersion reg s).success = true ↔
      ∃ r ∈ reg, mkVersionString r.version = s) ∧
    (rollbackToVersion reg s).model = getModelByVersion reg s ∧
    ((rollbackToVersion reg s).success = false →
      (rollbackToVersion reg s).error = some ("Model version " ++ s ++ " not found")) := by
  unfold rollbackToVersion getModelByVersion
  cases hfind : reg.find? (fun r => mkVersionString r.version == s) with
  | none =>
      refine ⟨?_, rfl, fun _ => rfl⟩
      simp only [Bool.false_eq_true, false_iff]
      rintro ⟨r, hr, he⟩
      exact List.find?_eq_none.mp hfind r hr (by simp [he])
  | some m =>
      refine ⟨?_, rfl, fun hc => by simp at hc⟩
      have hmem := List.mem_of_find?_eq_some hfind
      have hp := List.find?_some hfind
      exact ⟨fun _ => ⟨m, hmem, by simpa using hp⟩, fun _ => rfl⟩

/-- Witness for `C5_rollback_spec`: a one-row registry holding `v1.0.0`;
rollback to `"v1.0.0"` succeeds with that row, rollback to `"v9.9.9"` fails
with the error message. -/
theorem C5_rollback_spec_witness :
    (rollbackToVersion [⟨⟨1, 0, 0⟩, "bitcoin", 0, none, none, none, "m1"⟩] "v1.0.0").success
      = true ∧
    (rollbackToVersion [⟨⟨1, 0, 0⟩, "bitcoin", 0, none, none, none, "m1"⟩] "v9.9.9").error
      = some ("Model version " ++ "v9.9.9" ++ " not found") :=
  ⟨(C5_rollback_spec [⟨⟨1, 0, 0⟩, "bitcoin", 0, none, none, none, "m1"⟩] "v1.0.0").1.mpr
      ⟨⟨⟨1, 0, 0⟩, "bitcoin", 0, none, none, none, "m1"⟩, by decide, by decide⟩,
    (C5_rollback_spec [⟨⟨1, 0, 0⟩, "bitcoin", 0, none, none, none, "m1"⟩] "v9.9.9").2.2
      (by decide)⟩

/-- The autoregressive loop emits exactly one value per step. -/
theorem autoregress_length (f : List ℚ → ℚ) :
    ∀ (n : ℕ) (seq : List ℚ), (autoregress f seq n).length = n
  | 0, _ => rfl
  | n + 1, seq => by simp [autoregress, autoregress_length f n]

/-- Subtracting a common nonnegative offset bounds a list from below,
pointwise. -/
theorem forall2_map_sub (l : List ℚ) (c : ℚ) (hc : 0 ≤ c) :
    List.Forall₂ (· ≤ ·) (l.map fun p => p - c) l := by
  induction l with
  | nil => constructor
  | cons a t ih => exact List.Forall₂.cons (sub_le_self a hc) ih

/-- Adding a common nonnegative offset bounds a list from above, pointwise. -/
theorem forall2_map_add (l : List ℚ) (c : ℚ) (hc : 0 ≤ c) :
    List.Forall₂ (· ≤ ·) l (l.map fun p => p + c) := by
  induction l with
  | nil => constructor
  | cons a t ih => exact List.Forall₂.cons (le_add_of_nonneg_right hc) ih

/-- Claim C7: for every trained one-step model, window, horizon `h`, scaler
parameters, and `predStd` equal to 10% of the standard deviation of the
forecast path (`predStd ≥ 0` with `(10·predStd)²` the path's variance — the
unique nonnegative root), `predict_future` returns `predictions`, `lower` and
`upper` of length exactly `h` with `lower[i] ≤ predictions[i] ≤ upper[i]`
pointwise, the bands sitting `1.96 × predStd` around each forecast point. -/
theorem C7_forecast_bands (f : List ℚ → ℚ) (seq : List ℚ) (h : ℕ)
    (rng mn s : ℚ) (hs : 0 ≤ s)
    (_hvar : (10 * s) ^ 2 = listVariance (predictFuture f seq h rng mn s).predictions) :
    (predictFuture f seq h rng mn s).predictions.length = h ∧
    (predictFuture f seq h rng mn s).lower.length = h ∧
    (predictFuture f seq h rng mn s).upper.length = h ∧
    List.Forall₂ (· ≤ ·) (predictFuture f seq h rng mn s).lower
      (predictFuture f seq h rng mn s).predictions ∧
    List.Forall₂ (· ≤ ·) (predictFuture f seq h rng mn s).predictions
      (predictFuture f seq h rng mn s).upper := by
  have hc : 0 ≤ 196 / 100 * s := by
    have : (0 : ℚ) ≤ 196 / 100 := by norm_num
    exact mul_nonneg this hs
  refine ⟨?_, ?_, ?_, ?_, ?_⟩
  · simp [predictFuture, autoregress_length]
  · simp [predictFuture, autoregress_length]
  · simp [predictFuture, autoregress_length]
  · exact forall2_map_sub _ _ hc
  · exact forall2_map_add _ _ hc

/-- The constant-zero model rolls out to a constant-zero (scaled) path. -/
theorem autoregress_zero_fn :
    ∀ (n : ℕ) (seq : List ℚ),
      autoregress (fun _ => (0 : ℚ)) seq n = List.replicate n 0
  | 0, _ => rfl
  | n + 1, seq => by simp [autoregress, autoregress_zero_fn n, List.replicate_succ]

/-- With the identity scaler, the unscaled constant-zero 7-step path. -/
theorem predictFuture_zero_predictions :
    (predictFuture (fun _ => (0 : ℚ)) [] 7 1 0 0).predictions = List.replicate 7 0 := by
  simp [predictFuture, autoregress_zero_fn, inverseTransform]

/-- A constant path has zero variance. -/
theorem listVariance_replicate_zero : listVariance (List.replicate 7 (0 : ℚ)) = 0 := by
  simp [listVariance, listMean, List.map_replicate, List.sum_replicate]

/-- Witness for `C7_forecast_bands`: the constant-zero model over horizon 7
(the spec's default), identity scaler, zero path variance. -/
theorem C7_forecast_bands_witness :
    0 ≤ (0 : ℚ) ∧
    (10 * (0 : ℚ)) ^ 2 =
      listVariance ((predictFuture (fun _ => 0) [] 7 1 0 0).predictions) ∧
    ((predictFuture (fun _ => 0) [] 7 1 0 0).predictions.length = 7 ∧
     (predictFuture (fun _ => 0) [] 7 1 0 0).lower.length = 7 ∧
     (predictFuture (fun _ => 0) [] 7 1 0 0).upper.length = 7 ∧
     List.Forall₂ (· ≤ ·) (predictFuture (fun _ => 0) [] 7 1 0 0).lower
       (predictFuture (fun _ => 0) [] 7 1 0 0).predictions ∧
     List.Forall₂ (· ≤ ·) (predictFuture (fun _ => 0) [] 7 1 0 0).predictions
       (predictFuture (fun _ => 0) [] 7 1 0 0).upper) :=
  ⟨le_refl 0,
    by rw [predictFuture_zero_predictions, listVariance_replicate_zero]; norm_num,
    C7_forecast_bands (fun _ => 0) [] 7 1 0 0 (le_refl 0)
      (by rw [predictFuture_zero_predictions, listVariance_replicate_zero]; norm_num)⟩

/-- Claim C8: `load_data` fails (with a `ModelError`, the reported recoverable
condition) exactly when fewer than `sequence_length + forecast_days` valid
points remain after dropping rows with unparsable timestamps or missing
prices; on success it returns exactly those valid points ordered ascending by
timestamp. -/
theorem C8_load_window_spec (rows : List RawPriceRow) (seqLen horizon : ℕ)
    (hpos : 1 ≤ seqLen + horizon) :
    (isErr (loadData rows seqLen horizon) = true ↔
      (validPoints rows).length < seqLen + horizon) ∧
    ∀ l, loadData rows seqLen horizon = .ok l →
      l.Sorted tsLE ∧ l.Perm (validPoints rows) := by
  unfold loadData
  by_cases hrows : rows.isEmpty
  · rw [if_pos hrows]
    have hr : rows = [] := List.isEmpty_iff.mp hrows
    subst hr
    refine ⟨?_, fun l hl => by simp at hl⟩
    simp only [isErr, validPoints, List.filterMap_nil, List.length_nil, true_iff]
    omega
  · rw [if_neg hrows]
    have hlen : (List.insertionSort tsLE (validPoints rows)).length
        = (validPoints rows).length :=
      (List.perm_insertionSort tsLE (validPoints rows)).length_eq
    by_cases hcut : (List.insertionSort tsLE (validPoints rows)).length < seqLen + horizon
    · rw [if_pos hcut]
      refine ⟨?_, fun l hl => by simp at hl⟩
      simp only [isErr, true_iff]
      omega
    · rw [if_neg hcut]
      refine ⟨?_, fun l hl => ?_⟩
      · simp only [isErr]
        constructor
        · intro hfalse; exact absurd hfalse (by simp)
        · intro hlt; omega
      · cases hl
        exact ⟨List.sorted_insertionSort tsLE _, List.perm_insertionSort tsLE _⟩

/-- Witness for `C8_load_window_spec`: a single clean row with
`sequence_length + forecast_days = 1`. -/
theorem C8_load_window_spec_witness :
    1 ≤ 1 + 0 ∧
    (isErr (loadData [⟨some 0, some 5⟩] 1 0) = true ↔
      (validPoints [⟨some 0, some 5⟩]).length < 1 + 0) :=
  ⟨by decide, (C8_load_window_spec [⟨some 0, some 5⟩] 1 0 (by decide)).1⟩

/-- Claim C2, counterexample: the registry can be empty *for the asset* yet
the first `register_model` call for it still aborts: with bitcoin holding
`v1.0.0` and no ethereum rows at all, one registration for ethereum raises
`IntegrityError` instead of yielding `v1.0.0`, because the `version` primary
key is global, not per-asset. -/
theorem C2_cross_asset_collision_aborts :
    (([⟨⟨1, 0, 0⟩, "bitcoin", 0, none, none, none, "m1"⟩] : Registry).filter
        fun r => r.coin == "ethereum") = [] ∧
    registerIter "ethereum" [⟨⟨1, 0, 0⟩, "bitcoin", 0, none, none, none, "m1"⟩] 1 1 =
      .error .integrityError :=
  ⟨rfl, rfl⟩

/-- The registry after one more registration appends one row. -/
theorem baseReg_succ (coin : String) (c k : ℕ) :
    baseReg coin c (k + 1) = baseReg coin c k ++
      [⟨⟨1, 0, k⟩, coin, c + k, none, none, none, "model.h5"⟩] := by
  simp [baseReg, List.range_succ]

/-- Appending a row of the queried asset to the registry updates the
`ORDER BY created_at DESC LIMIT 1` result by one max-comparison step. -/
theorem latestFor_append_keep (reg : Registry) (r : RegRow) (coin : String)
    (hc : r.coin = coin) :
    latestFor (reg ++ [r]) coin =
      match latestFor reg coin with
      | none => some r
      | some a => if a.createdAt < r.createdAt then some r else some a := by
  unfold latestFor
  rw [List.filter_append, List.foldl_append]
  simp [List.filter_cons, hc]

/-- On the registry built by `k + 1` registrations for one asset, the
most-recent-by-creation-time row is the last one registered. -/
theorem latestFor_baseReg (coin : String) (c : ℕ) :
    ∀ k, latestFor (baseReg coin c (k + 1)) coin =
      some ⟨⟨1, 0, k⟩, coin, c + k, none, none, none, "model.h5"⟩
  | 0 => by simp [baseReg, latestFor, List.range_succ, List.filter_cons]
  | k + 1 => by
      rw [baseReg_succ coin c (k + 1), latestFor_append_keep _ _ _ rfl,
        latestFor_baseReg coin c k]
      simp only []
      rw [if_pos (by omega)]

/-- On the registry built by `k` registrations for one asset,
`_get_next_version` computes `v1.0.k`. -/
theorem getNextVersion_baseReg (coin : String) (c : ℕ) :
    ∀ k, getNextVersion (baseReg coin c k) coin = ⟨1, 0, k⟩
  | 0 => by simp [getNextVersion, baseReg, latestFor]
  | k + 1 => by
      unfold getNextVersion
      rw [latestFor_baseReg coin c k]

/-- No row of the registry built by `k` registrations already holds version
`v1.0.k`. -/
theorem baseReg_no_version (coin : String) (c k : ℕ) :
    (baseReg coin c k).any (fun r => decide (r.version = ⟨1, 0, k⟩)) = false := by
  rw [List.any_eq_false]
  intro r hr
  simp only [baseReg, List.mem_map, List.mem_range] at hr
  obtain ⟨i, hi, rfl⟩ := hr
  simp only [decide_eq_true_eq, Version.mk.injEq]
  omega

/-- One `register_model` call on the registry built by `k` registrations
succeeds with version `v1.0.k` and appends its row. -/
theorem registerModel_baseReg (coin : String) (c k : ℕ) :
    registerModel (baseReg coin c k) coin "model.h5" none none none (c + k) =
      .ok (baseReg coin c (k + 1), ⟨1, 0, k⟩) := by
  simp only [registerModel, getNextVersion_baseReg coin c k, baseReg_no_version coin c k,
    Bool.false_eq_true, if_false, baseReg_succ coin c k]

/-- Iterating `register_model` `n` more times after `k` successful ones keeps
producing consecutive patch versions. -/
theorem registerIter_baseReg (coin : String) (c : ℕ) :
    ∀ (n k clock : ℕ), clock = c + k →
      registerIter coin (baseReg coin c k) clock n =
        .ok (baseReg coin c (k + n), (List.range' k n).map fun i => (⟨1, 0, i⟩ : Version))
  | 0, k, _, h => by subst h; simp [registerIter]
  | n + 1, k, clock, h => by
      subst h
      have hnext := registerIter_baseReg coin c n (k + 1) (c + k + 1) (by omega)
      have hsum : k + 1 + n = k + (n + 1) := by omega
      rw [hsum] at hnext
      simp only [registerIter, registerModel_baseReg coin c k]
      rw [hnext]
      rfl

/-- Claim C2 as amended: starting from a *globally* empty registry (no rows
for any asset), `register_model` called `N` times for one asset yields
exactly the versions `v1.0.0, v1.0.1, …, v1.0.(N-1)` in order — strictly
increasing patch components, no gaps, no repeats — with each call reading
the asset's most recent version by creation time and the first defaulting
to `v1.0.0`. -/
theorem C2_register_sequence_from_empty (coin : String) (c N : ℕ) :
    registerIter coin [] c N =
      .ok (baseReg coin c N, (List.range N).map fun i => (⟨1, 0, i⟩ : Version)) := by
  have h := registerIter_baseReg coin c N 0 c (by omega)
  simpa [baseReg, List.range_eq_range'] using h

end PriceDashboard
